import Mathlib

/-!
Shallow embedding of the layer registry of `react-simple-layer`
(`src/store.tsx`): the global `LayerStore` object with its ordered
`layers` array and its `listeners` set, the mutation operations
`add` / `destroy`, the fan-out `notify`, and the subscription side
(`subscribe` / `getSnapshot`) from `useLayerStore`.

Modelling decisions, each tied to a line of the source:

* A `Layer` value carries `key : string` plus opaque payload fields
  (`component`, a `destroy` callback and optional `props`); the registry
  never inspects anything but `key`, so the payloads are abstract `Nat`
  handles.
* `LayerStore.layers` is a JS array replaced wholesale on every mutation
  (`[...layers, layer]` and `layers.filter(...)` both allocate a fresh
  array object).  Object identity of the current array is modelled by a
  tag `layersRef : Nat` that is bumped on every reassignment; two
  snapshots are identity-equal iff their tags agree.
* `LayerStore.listeners` is a JS `Set` of callback handles: insertion
  ordered, duplicates collapse.  For the operations whose listeners do
  not re-enter the store it is modelled as a duplicate-free list of
  handles (`setAdd` / `setDelete` are `Set.prototype.add` / `delete`).
* `notify` calls `listeners.forEach(listener => listener())`.  When the
  listeners are inert its observable effect is the invocation trace,
  one call per currently registered handle, in insertion order.  The
  re-entrant case (listeners that add or remove listeners during the
  cycle) is modelled separately below by `notifyReentrant`, which follows
  the ECMAScript semantics of `Set.prototype.forEach`: iteration is
  positional over the internal entry list, a deleted entry is replaced
  by an empty slot that the iterator skips, and entries appended during
  iteration are visited.
-/

/-- A registered overlay entry, from `export type Layer` in `src/store.tsx`:
`key` is the string identifier used by `destroy`; `component`, the `destroy`
callback and the optional `props` are opaque payloads the registry only
stores and hands back, modelled as abstract handles. -/
structure Layer where
  key : String
  component : Nat
  destroy : Nat
  props : Option Nat
deriving DecidableEq, Repr

/-- The mutable state of the global `LayerStore` object: the ordered
`layers` array together with the identity tag `layersRef` of the current
array object, and the `listeners` set, kept as a duplicate-free
insertion-ordered list of callback handles. -/
structure StoreState where
  layers : List Layer
  layersRef : Nat
  listeners : List Nat
deriving DecidableEq, Repr

/-- JS `Set.prototype.add`: appends the element unless it is already a
member (duplicates collapse, insertion order kept). -/
def setAdd (s : List Nat) (x : Nat) : List Nat :=
  if x ∈ s then s else s ++ [x]

/-- JS `Set.prototype.delete`: removes the element if present. -/
def setDelete (s : List Nat) (x : Nat) : List Nat :=
  s.filter (fun y => y != x)

namespace LayerStore

/-- The initial `LayerStore` literal: `layers: []`, `listeners: new Set()`. -/
def initState : StoreState :=
  { layers := [], layersRef := 0, listeners := [] }

/-- `notify() { LayerStore.listeners.forEach(listener => listener()); }`
with inert listeners: the observable effect is the invocation trace, one
call per registered handle, in insertion order. -/
def notify (s : StoreState) : List Nat :=
  s.listeners

/-- `add(layer)`: `LayerStore.layers = [...LayerStore.layers, layer]`
(append into a freshly allocated array, hence a new identity tag),
then `LayerStore.notify()`.  Returns the new state and the trace of
listener invocations performed by the notify call. -/
def add (s : StoreState) (layer : Layer) : StoreState × List Nat :=
  let s' : StoreState :=
    { s with layers := s.layers ++ [layer], layersRef := s.layersRef + 1 }
  (s', notify s')

/-- `destroy(key)`:
`LayerStore.layers = LayerStore.layers.filter(layer => layer.key !== key)`
(`Array.prototype.filter` allocates a fresh array even when nothing is
removed, hence a new identity tag), then `LayerStore.notify()`
unconditionally.  Returns the new state and the notify trace. -/
def destroy (s : StoreState) (key : String) : StoreState × List Nat :=
  let s' : StoreState :=
    { s with layers := s.layers.filter (fun layer => layer.key != key),
             layersRef := s.layersRef + 1 }
  (s', notify s')

/-- The `subscribe` closure of `useLayerStore`:
`LayerStore.listeners.add(listener)`. -/
def subscribe (s : StoreState) (listener : Nat) : StoreState :=
  { s with listeners := setAdd s.listeners listener }

/-- The unsubscribe capability returned by `subscribe`:
`() => { LayerStore.listeners.delete(listener) }`. -/
def unsubscribe (s : StoreState) (listener : Nat) : StoreState :=
  { s with listeners := setDelete s.listeners listener }

/-- The `getSnapshot` argument of `useSyncExternalStore`:
`() => { return LayerStore.layers }` — it returns the current array by
reference, modelled as the list of layers paired with the identity tag
of the current array object. -/
def getSnapshot (s : StoreState) : List Layer × Nat :=
  (s.layers, s.layersRef)

end LayerStore

/-- An action a re-entrant listener may perform on the listener set while
being invoked from inside a notify cycle: subscribing a handle
(`listeners.add`) or unsubscribing one (`listeners.delete`). -/
inductive LAct where
  | addL : Nat → LAct
  | delL : Nat → LAct
deriving DecidableEq, Repr

/-- The internal entry list of a JS `Set` during iteration: a deleted
entry leaves an empty slot (`none`) that the iterator skips, so that the
positions of the surviving entries are stable. -/
abbrev Slots := List (Option Nat)

/-- `Set.prototype.add` on the entry list: appends a fresh slot unless the
value already occupies one. -/
def slotsAdd (s : Slots) (x : Nat) : Slots :=
  if some x ∈ s then s else s ++ [some x]

/-- `Set.prototype.delete` on the entry list: the value's slot (if any)
becomes an empty slot; positions of the other entries are unchanged. -/
def slotsDel (s : Slots) (x : Nat) : Slots :=
  s.map (fun o => if o = some x then none else o)

/-- Effect of one listener action on the entry list. -/
def applyAct (s : Slots) : LAct → Slots
  | .addL j => slotsAdd s j
  | .delL j => slotsDel s j

/-- Effect of a whole listener body, a finite sequence of actions, on the
entry list. -/
def applyEffect (s : Slots) (e : List LAct) : Slots :=
  e.foldl applyAct s

/-- ECMAScript `Set.prototype.forEach` over the entry list, where invoking
the entry `x` mutates the set by `env x`: iteration is by position, empty
slots are skipped, appended entries are visited, and the callback's
mutations take effect before the next position is examined.  `fuel` bounds
the number of positions examined (a listener that keeps re-adding deleted
entries makes the real loop run forever); `none` means the fuel ran out
before the cycle completed. -/
def forEachFuel (env : Nat → List LAct) : Nat → Nat → Slots → Option (Slots × List Nat)
  | 0, _, _ => none
  | fuel + 1, i, s =>
    if h : i < s.length then
      match s[i] with
      | none => forEachFuel env fuel (i + 1) s
      | some x =>
        match forEachFuel env fuel (i + 1) (applyEffect s (env x)) with
        | none => none
        | some (s2, tr) => some (s2, x :: tr)
    else
      some (s, [])

/-- `LayerStore.notify` with re-entrant listeners: the listener set
(entry list built from the registered handles) is iterated live by
`forEach`, each invoked handle `x` performing `env x` on the set.
Returns the final entry list and the trace of invoked handles, or `none`
if `fuel` positions did not suffice. -/
def notifyReentrant (env : Nat → List LAct) (fuel : Nat) (listeners : List Nat) :
    Option (Slots × List Nat) :=
  forEachFuel env fuel 0 (listeners.map some)

/-- A listener environment in which handle `1` unsubscribes handle `2`
when invoked, and every other listener is inert. -/
def delayedEnv : Nat → List LAct :=
  fun x => if x = 1 then [LAct.delL 2] else []

/-- C1: adds append in insertion order (from the empty store, `add a`,
`add b`, `add c` leaves the snapshot `[a, b, c]`); `destroy` is a filter,
so its result is always a sublist of the previous layers (removal never
reorders survivors); and destroying `b.key` after the three adds leaves
`[a, c]` when the other two keys differ from `b.key`. -/
theorem add_insertion_order_destroy_keeps_order (a b c : Layer) (s : StoreState) (k : String) :
    ((LayerStore.add ((LayerStore.add ((LayerStore.add LayerStore.initState a).1) b).1) c).1).layers
      = [a, b, c] ∧
    List.Sublist ((LayerStore.destroy s k).1).layers s.layers ∧
    (a.key ≠ b.key → c.key ≠ b.key →
      ((LayerStore.destroy
        ((LayerStore.add ((LayerStore.add ((LayerStore.add LayerStore.initState a).1) b).1) c).1)
        b.key).1).layers = [a, c]) := by
  refine ⟨rfl, List.filter_sublist _, fun ha hc => ?_⟩
  simp [LayerStore.add, LayerStore.destroy, LayerStore.initState, ha, hc]

/-- C1 witness: the theorem applied at three concrete layers with distinct
keys and a concrete state. -/
theorem add_insertion_order_destroy_keeps_order_witness :
    ((LayerStore.destroy
        ((LayerStore.add ((LayerStore.add ((LayerStore.add LayerStore.initState
          ⟨"a", 0, 0, none⟩).1) ⟨"b", 1, 1, none⟩).1) ⟨"c", 2, 2, none⟩).1)
        (Layer.mk "b" 1 1 none).key).1).layers
      = [⟨"a", 0, 0, none⟩, ⟨"c", 2, 2, none⟩] :=
  (add_insertion_order_destroy_keeps_order ⟨"a", 0, 0, none⟩ ⟨"b", 1, 1, none⟩
    ⟨"c", 2, 2, none⟩ LayerStore.initState "x").2.2 (by decide) (by decide)

/-- C2: `add` makes no uniqueness check — two successive adds always grow
the registry by two entries, whatever the keys (in particular two layers
sharing a key, from the empty store, give length 2); `destroy k` removes
every entry whose key is `k`, so no entry with key `k` survives; and
destroying the shared key after the two adds empties the registry. -/
theorem duplicate_keys_destroy_removes_all (s : StoreState) (l1 l2 : Layer) (k : String) :
    ((LayerStore.add (LayerStore.add s l1).1 l2).1).layers.length = s.layers.length + 2 ∧
    (∀ l ∈ ((LayerStore.destroy s k).1).layers, l.key ≠ k) ∧
    (l1.key = k → l2.key = k →
      ((LayerStore.destroy ((LayerStore.add (LayerStore.add LayerStore.initState l1).1 l2).1)
        k).1).layers.length = 0) := by
  refine ⟨by simp [LayerStore.add], fun l hl => ?_, fun h1 h2 => ?_⟩
  · simp only [LayerStore.destroy, List.mem_filter, bne_iff_ne] at hl
    exact hl.2
  · simp [LayerStore.add, LayerStore.destroy, LayerStore.initState, h1, h2]

/-- C2 witness: the theorem applied at two concrete layers sharing the key
`"m"`, on the empty store. -/
theorem duplicate_keys_destroy_removes_all_witness :
    ((LayerStore.add (LayerStore.add LayerStore.initState ⟨"m", 0, 0, none⟩).1
        ⟨"m", 1, 1, none⟩).1).layers.length = LayerStore.initState.layers.length + 2 ∧
    ((LayerStore.destroy ((LayerStore.add (LayerStore.add LayerStore.initState
        ⟨"m", 0, 0, none⟩).1 ⟨"m", 1, 1, none⟩).1) "m").1).layers.length = 0 := by
  have h := duplicate_keys_destroy_removes_all LayerStore.initState
    ⟨"m", 0, 0, none⟩ ⟨"m", 1, 1, none⟩ "m"
  exact ⟨h.1, h.2.2 (by decide) (by decide)⟩

/-- C3: `getSnapshot` is a pure read of the current array reference, so two
calls with no intervening mutation return the same object; and both `add`
and `destroy` (the latter even when it removes nothing) reassign `layers`
to a freshly allocated array, so the new snapshot is never identity-equal
to the prior one. -/
theorem snapshot_identity_stability (s : StoreState) (l : Layer) (k : String) :
    LayerStore.getSnapshot s = LayerStore.getSnapshot s ∧
    (LayerStore.getSnapshot (LayerStore.add s l).1).2 ≠ (LayerStore.getSnapshot s).2 ∧
    (LayerStore.getSnapshot (LayerStore.destroy s k).1).2 ≠ (LayerStore.getSnapshot s).2 := by
  refine ⟨rfl, ?_, ?_⟩ <;>
    simp [LayerStore.getSnapshot, LayerStore.add, LayerStore.destroy]

/-- C4: `destroy` on a key no layer carries leaves the layers unchanged
(on the empty store the length stays 0), yet its notify trace is always
exactly the current listener list — one full notification cycle,
unconditionally. -/
theorem noop_destroy_still_notifies (s : StoreState) (k : String) :
    ((∀ l ∈ s.layers, l.key ≠ k) → ((LayerStore.destroy s k).1).layers = s.layers) ∧
    (LayerStore.destroy s k).2 = s.listeners ∧
    ((LayerStore.destroy LayerStore.initState k).1).layers.length = 0 := by
  refine ⟨fun h => ?_, rfl, rfl⟩
  simp only [LayerStore.destroy]
  exact List.filter_eq_self.mpr fun l hl => by simpa [bne_iff_ne] using h l hl

/-- C4 witness: the theorem applied on the empty store at the key
`"missing"`. -/
theorem noop_destroy_still_notifies_witness :
    ((LayerStore.destroy LayerStore.initState "missing").1).layers
        = LayerStore.initState.layers ∧
    (LayerStore.destroy LayerStore.initState "missing").2
        = LayerStore.initState.listeners :=
  ⟨(noop_destroy_still_notifies LayerStore.initState "missing").1 (by simp [LayerStore.initState]),
   (noop_destroy_still_notifies LayerStore.initState "missing").2.1⟩

/-- C9: frame conditions — `add` and `destroy` leave the listener set
untouched, and `subscribe` / `unsubscribe` leave both the layers sequence
and its identity tag untouched (listeners are inert in this model, i.e.
they do not themselves mutate the registry). -/
theorem operations_frame_conditions (s : StoreState) (l : Layer) (k : String) (x : Nat) :
    ((LayerStore.add s l).1).listeners = s.listeners ∧
    ((LayerStore.destroy s k).1).listeners = s.listeners ∧
    (LayerStore.subscribe s x).layers = s.layers ∧
    (LayerStore.subscribe s x).layersRef = s.layersRef ∧
    (LayerStore.unsubscribe s x).layers = s.layers ∧
    (LayerStore.unsubscribe s x).layersRef = s.layersRef :=
  ⟨rfl, rfl, rfl, rfl, rfl, rfl⟩

/-- C10: `destroy` is idempotent on the layers contents — filtering by the
same key twice equals filtering once — while each of the two calls still
performs its own full notification cycle over the (unchanged) listener
list. -/
theorem destroy_idempotent_on_layers (s : StoreState) (k : String) :
    ((LayerStore.destroy (LayerStore.destroy s k).1 k).1).layers
        = ((LayerStore.destroy s k).1).layers ∧
    (LayerStore.destroy s k).2 = s.listeners ∧
    (LayerStore.destroy (LayerStore.destroy s k).1 k).2 = s.listeners := by
  refine ⟨?_, rfl, rfl⟩
  simp [LayerStore.destroy, List.filter_filter]

/-- Adding an element to a JS set makes it a member. -/
theorem setAdd_mem_self (L : List Nat) (x : Nat) : x ∈ setAdd L x := by
  by_cases h : x ∈ L <;> simp [setAdd, h]

/-- Adding to a duplicate-free JS set keeps it duplicate-free. -/
theorem setAdd_nodup (L : List Nat) (x : Nat) (h : L.Nodup) : (setAdd L x).Nodup := by
  by_cases hx : x ∈ L <;> simp [setAdd, hx, h, List.nodup_append, List.disjoint_singleton]

/-- Adding an element that the set already absorbed a second time changes
nothing (JS `Set.add` collapses duplicates). -/
theorem setAdd_idem (L : List Nat) (x : Nat) : setAdd (setAdd L x) x = setAdd L x := by
  by_cases hx : x ∈ L <;> simp [setAdd, hx]

/-- On a duplicate-free set, deletion is erasure of the one occurrence. -/
theorem setDelete_eq_erase (L : List Nat) (x : Nat) (h : L.Nodup) :
    setDelete L x = L.erase x := by
  rw [setDelete, List.Nodup.erase_eq_filter h x]

/-- C5: with a duplicate-free listener set, one `add` call invokes each
registered listener exactly once (trace count 1 per member), an empty
listener set yields an empty trace (no-op fan-out), and after
unsubscribing `y` a subsequent `add` invokes `y` zero times while every
other listener is still invoked exactly once, the trace now covering one
listener fewer. -/
theorem listener_fanout (s : StoreState) (l : Layer) (x y : Nat)
    (hnd : s.listeners.Nodup) :
    (x ∈ s.listeners → ((LayerStore.add s l).2).count x = 1) ∧
    (s.listeners = [] → (LayerStore.add s l).2 = []) ∧
    (y ∈ s.listeners →
      ((LayerStore.add (LayerStore.unsubscribe s y) l).2).count y = 0 ∧
      ((LayerStore.add (LayerStore.unsubscribe s y) l).2).length = s.listeners.length - 1 ∧
      ∀ z ∈ s.listeners, z ≠ y →
        ((LayerStore.add (LayerStore.unsubscribe s y) l).2).count z = 1) := by
  refine ⟨fun hx => ?_, fun he => ?_, fun hy => ⟨?_, ?_, fun z hz hzy => ?_⟩⟩
  · exact List.count_eq_one_of_mem hnd hx
  · simp [LayerStore.add, LayerStore.notify, he]
  · have : y ∉ setDelete s.listeners y := by simp [setDelete]
    simpa [LayerStore.add, LayerStore.notify, LayerStore.unsubscribe]
      using List.count_eq_zero.mpr this
  · show (setDelete s.listeners y).length = s.listeners.length - 1
    rw [setDelete_eq_erase _ _ hnd]
    exact List.length_erase_of_mem hy
  · show (setDelete s.listeners y).count z = 1
    refine List.count_eq_one_of_mem (List.Nodup.filter _ hnd) ?_
    simp [setDelete, List.mem_filter, hz, hzy]

/-- C5 witness: three listeners `[1, 2, 3]`; one `add` invokes listener 1
once; after unsubscribing listener 2, an `add` invokes listener 2 zero
times, the trace has two entries, and listener 3 is still invoked once. -/
theorem listener_fanout_witness :
    ((LayerStore.add ⟨[], 0, [1, 2, 3]⟩ ⟨"a", 0, 0, none⟩).2).count 1 = 1 ∧
    ((LayerStore.add (LayerStore.unsubscribe ⟨[], 0, [1, 2, 3]⟩ 2) ⟨"a", 0, 0, none⟩).2).count 2
      = 0 ∧
    ((LayerStore.add (LayerStore.unsubscribe ⟨[], 0, [1, 2, 3]⟩ 2) ⟨"a", 0, 0, none⟩).2).length
      = 2 ∧
    ((LayerStore.add (LayerStore.unsubscribe ⟨[], 0, [1, 2, 3]⟩ 2) ⟨"a", 0, 0, none⟩).2).count 3
      = 1 := by
  have h := listener_fanout (⟨[], 0, [1, 2, 3]⟩ : StoreState) ⟨"a", 0, 0, none⟩ 1 2 (by decide)
  refine ⟨h.1 (by decide), (h.2.2 (by decide)).1, ?_, (h.2.2 (by decide)).2.2 3 (by decide)
    (by decide)⟩
  have := (h.2.2 (by decide)).2.1
  simpa using this

/-- C7: subscribing the same callback handle a second time is absorbed —
the store state after the double subscribe equals the state after a single
subscribe — and in a subsequent notify cycle (here from an `add`) that
handle is invoked exactly once, not twice. -/
theorem duplicate_subscribe_collapses (s : StoreState) (x : Nat) (l : Layer) :
    LayerStore.subscribe (LayerStore.subscribe s x) x = LayerStore.subscribe s x ∧
    (s.listeners.Nodup →
      ((LayerStore.add (LayerStore.subscribe (LayerStore.subscribe s x) x) l).2).count x
        = 1) := by
  constructor
  · simp [LayerStore.subscribe, setAdd_idem]
  · intro hnd
    show (setAdd (setAdd s.listeners x) x).count x = 1
    rw [setAdd_idem]
    exact List.count_eq_one_of_mem (setAdd_nodup _ _ hnd) (setAdd_mem_self _ _)

/-- C7 witness: subscribing handle 5 twice on a store that already has
listener 7; the following `add` invokes handle 5 exactly once. -/
theorem duplicate_subscribe_collapses_witness :
    ((LayerStore.add (LayerStore.subscribe (LayerStore.subscribe ⟨[], 0, [7]⟩ 5) 5)
        ⟨"a", 0, 0, none⟩).2).count 5 = 1 :=
  (duplicate_subscribe_collapses ⟨[], 0, [7]⟩ 5 ⟨"a", 0, 0, none⟩).2 (by decide)

/-- C8: the unsubscribe capability removes exactly its own callback —
afterwards `x` is no longer a member, a second unsubscribe call changes
nothing (idempotent no-op), membership of every other handle is untouched,
and any other still-subscribed listener is still invoked by the next
notify cycle (here from an `add`). -/
theorem unsubscribe_removes_exactly_own (s : StoreState) (x y : Nat) (l : Layer) :
    x ∉ (LayerStore.unsubscribe s x).listeners ∧
    LayerStore.unsubscribe (LayerStore.unsubscribe s x) x = LayerStore.unsubscribe s x ∧
    (y ≠ x → (y ∈ (LayerStore.unsubscribe s x).listeners ↔ y ∈ s.listeners)) ∧
    (y ≠ x → y ∈ s.listeners → y ∈ (LayerStore.add (LayerStore.unsubscribe s x) l).2) := by
  refine ⟨?_, ?_, fun hyx => ?_, fun hyx hy => ?_⟩
  · simp [LayerStore.unsubscribe, setDelete]
  · simp [LayerStore.unsubscribe, setDelete, List.filter_filter]
  · simp [LayerStore.unsubscribe, setDelete, List.mem_filter, hyx]
  · show y ∈ setDelete s.listeners x
    simp [setDelete, List.mem_filter, hy, hyx]

/-- C8 witness: listeners `[3, 4]`; after unsubscribing 3, membership of 4
is unchanged and 4 still appears in the next notify trace. -/
theorem unsubscribe_removes_exactly_own_witness :
    ((4 : Nat) ∈ (LayerStore.unsubscribe ⟨[], 0, [3, 4]⟩ 3).listeners ↔
      (4 : Nat) ∈ (StoreState.mk [] 0 [3, 4]).listeners) ∧
    (4 : Nat) ∈ (LayerStore.add (LayerStore.unsubscribe ⟨[], 0, [3, 4]⟩ 3)
      ⟨"a", 0, 0, none⟩).2 := by
  have h := unsubscribe_removes_exactly_own ⟨[], 0, [3, 4]⟩ 3 4 ⟨"a", 0, 0, none⟩
  exact ⟨h.2.2.1 (by decide), h.2.2.2 (by decide) (by decide)⟩

/-- Tombstoning a value other than `x` changes no occurrence of the live
entry `some x`, at any iteration position. -/
theorem count_slotsDel_drop (s : Slots) (x j : Nat) (hjx : j ≠ x) (k : Nat) :
    ((slotsDel s j).drop k).count (some x) = (s.drop k).count (some x) := by
  rw [slotsDel, ← List.map_drop]
  generalize s.drop k = l
  induction l with
  | nil => rfl
  | cons a t ih =>
    by_cases haj : a = some j
    · subst haj
      simp [List.count_cons, ih, hjx]
    · simp [List.count_cons, ih, haj]

/-- Adding a value to a set that already holds `some x` changes no
occurrence of `some x`, at any iteration position (the appended slot, if
any, holds a different value). -/
theorem count_slotsAdd_drop (s : Slots) (x j : Nat) (hm : some x ∈ s) (k : Nat) :
    ((slotsAdd s j).drop k).count (some x) = (s.drop k).count (some x) := by
  rw [slotsAdd]
  split
  · rfl
  · rename_i hj
    have hjx : (some j : Option Nat) ≠ some x := fun h => hj (h ▸ hm)
    rw [List.drop_append_eq_append_drop, List.count_append]
    have hz : (([some j] : Slots).drop (k - s.length)).count (some x) = 0 := by
      rcases Nat.eq_zero_or_pos (k - s.length) with h | h
      · rw [h, List.drop_zero]
        exact List.count_eq_zero_of_not_mem (by
          simp only [List.mem_singleton]
          exact fun hh => hjx hh.symm)
      · rw [List.drop_eq_nil_of_le (by simp only [List.length_singleton]; omega)]
        rfl
    rw [hz, Nat.add_zero]

/-- Tombstoning a value other than `x` keeps `some x` a member. -/
theorem mem_slotsDel (s : Slots) (x j : Nat) (hjx : j ≠ x) (hm : some x ∈ s) :
    some x ∈ slotsDel s j := by
  rw [slotsDel]
  refine List.mem_map.mpr ⟨some x, hm, ?_⟩
  rw [if_neg fun hh => hjx (Option.some.inj hh).symm]

/-- Adding any value keeps `some x` a member. -/
theorem mem_slotsAdd (s : Slots) (x j : Nat) (hm : some x ∈ s) :
    some x ∈ slotsAdd s j := by
  rw [slotsAdd]
  split
  · exact hm
  · exact List.mem_append_left _ hm

/-- A single listener action that is not `delete x` keeps `some x` a
member of the entry list. -/
theorem applyAct_mem (s : Slots) (a : LAct) (x : Nat) (ha : a ≠ LAct.delL x)
    (hm : some x ∈ s) : some x ∈ applyAct s a := by
  cases a with
  | addL j => exact mem_slotsAdd s x j hm
  | delL j => exact mem_slotsDel s x j (fun h => ha (by rw [h])) hm

/-- A single listener action that is not `delete x` changes no occurrence
of `some x`, at any iteration position. -/
theorem applyAct_count_drop (s : Slots) (a : LAct) (x : Nat) (ha : a ≠ LAct.delL x)
    (hm : some x ∈ s) (k : Nat) :
    ((applyAct s a).drop k).count (some x) = (s.drop k).count (some x) := by
  cases a with
  | addL j => exact count_slotsAdd_drop s x j hm k
  | delL j => exact count_slotsDel_drop s x j (fun h => ha (by rw [h])) k

/-- A listener body that never deletes `x` keeps `some x` a member of the
entry list. -/
theorem applyEffect_mem (e : List LAct) (x : Nat) :
    ∀ s : Slots, LAct.delL x ∉ e → some x ∈ s → some x ∈ applyEffect s e := by
  induction e with
  | nil => exact fun s _ hm => hm
  | cons a t ih =>
    intro s he hm
    exact ih (applyAct s a) (fun h => he (List.mem_cons_of_mem _ h))
      (applyAct_mem s a x (fun h => he (by rw [h]; exact List.mem_cons_self _ _)) hm)

/-- A listener body that never deletes `x` changes no occurrence of
`some x`, at any iteration position. -/
theorem applyEffect_count_drop (e : List LAct) (x : Nat) :
    ∀ s : Slots, LAct.delL x ∉ e → some x ∈ s →
      ∀ k, ((applyEffect s e).drop k).count (some x) = (s.drop k).count (some x) := by
  induction e with
  | nil => exact fun s _ _ k => rfl
  | cons a t ih =>
    intro s he hm k
    have ha : a ≠ LAct.delL x := fun h => he (by rw [h]; exact List.mem_cons_self _ _)
    rw [show applyEffect s (a :: t) = applyEffect (applyAct s a) t from rfl]
    rw [ih (applyAct s a) (fun h => he (List.mem_cons_of_mem _ h)) (applyAct_mem s a x ha hm) k]
    exact applyAct_count_drop s a x ha hm k

/-- Main invariant of the live `forEach` loop: when no listener body ever
deletes `x` and the entry list holds `some x` exactly once, a completed
cycle starting at position `i` invokes `x` exactly as often as `some x`
occurs at positions `≥ i`. -/
theorem forEachFuel_count_of_safe (env : Nat → List LAct) (x : Nat)
    (hsafe : ∀ y, LAct.delL x ∉ env y) :
    ∀ (fuel i : Nat) (s s2 : Slots) (tr : List Nat),
      forEachFuel env fuel i s = some (s2, tr) → s.count (some x) = 1 →
      tr.count x = (s.drop i).count (some x) := by
  intro fuel
  induction fuel with
  | zero =>
    intro i s s2 tr h
    simp [forEachFuel] at h
  | succ n ih =>
    intro i s s2 tr h hc
    have hmem : some x ∈ s := List.count_pos_iff.mp (hc ▸ Nat.one_pos)
    simp only [forEachFuel] at h
    split at h
    · rename_i hlen
      split at h
      · rename_i hsi
        rw [ih (i + 1) s s2 tr h hc, List.drop_eq_getElem_cons hlen, hsi]
        simp [List.count_cons]
      · rename_i y hsi
        rcases hrec : forEachFuel env n (i + 1) (applyEffect s (env y)) with _ | p
        · rw [hrec] at h
          exact absurd h (by simp)
        · obtain ⟨s2', tr'⟩ := p
          rw [hrec] at h
          simp only [Option.some.injEq, Prod.mk.injEq] at h
          obtain ⟨h1, h2⟩ := h
          subst h1
          subst h2
          have hc0 : (applyEffect s (env y)).count (some x) = 1 := by
            have := applyEffect_count_drop (env y) x s (hsafe y) hmem 0
            rw [List.drop_zero, List.drop_zero] at this
            rw [this, hc]
          have hE : tr'.count x = (s.drop (i + 1)).count (some x) :=
            (ih (i + 1) _ _ tr' hrec hc0).trans
              (applyEffect_count_drop (env y) x s (hsafe y) hmem (i + 1))
          rw [List.drop_eq_getElem_cons hlen, hsi]
          by_cases hxy : x = y
          · subst hxy
            simp [List.count_cons, hE]
          · simp [List.count_cons, hE, hxy]
    · rename_i hlen
      simp only [Option.some.injEq, Prod.mk.injEq] at h
      rw [← h.2, List.drop_eq_nil_of_le (Nat.le_of_not_lt hlen)]
      rfl

/-- C6 counterexample: `notify` iterates the live listener set (the source
has no snapshot-before-iterating), so a listener registered before the
cycle begins can miss its call.  With listeners `[1, 2]` and listener 1
unsubscribing listener 2 when invoked, the cycle completes normally but
its trace is `[1]`: listener 2 was registered before `notify()` began,
was not itself unsubscribed by anyone but another listener during the
cycle, and is never called. -/
theorem notify_skips_listener_removed_mid_cycle :
    notifyReentrant delayedEnv 10 [1, 2] = some ([some 1, none], [1]) ∧
    (2 : Nat) ∈ ([1, 2] : List Nat) ∧ (2 : Nat) ∉ ([1] : List Nat) := by
  decide

/-- In a duplicate-free list, a member occurs exactly once. -/
theorem count_one_of_nodup_mem {α : Type} [BEq α] [LawfulBEq α] {l : List α} {a : α}
    (hnd : l.Nodup) (hm : a ∈ l) : l.count a = 1 := by
  induction l with
  | nil => cases hm
  | cons b t ih =>
    rcases List.mem_cons.mp hm with h | h
    · subst h
      rw [List.count_cons_self, List.count_eq_zero_of_not_mem (List.nodup_cons.mp hnd).1]
    · have hba : a ≠ b := fun e => (List.nodup_cons.mp hnd).1 (e ▸ h)
      rw [List.count_cons_of_ne hba]
      exact ih (List.nodup_cons.mp hnd).2 h

/-- C6 (amended): the guarantee holds for every listener that is not
removed during the cycle — if the listener set is duplicate-free, `x` is
registered before `notify()` begins, no listener body ever unsubscribes
`x`, and the cycle completes, then `x` is invoked exactly once in that
cycle (a listener added during the cycle may or may not be called in it,
and the iteration itself tolerates concurrent adds and removes). -/
theorem notify_calls_surviving_listener_once (env : Nat → List LAct) (fuel : Nat)
    (ls : List Nat) (x : Nat) (s2 : Slots) (tr : List Nat)
    (hnd : ls.Nodup) (hx : x ∈ ls) (hsafe : ∀ y, LAct.delL x ∉ env y)
    (hrun : notifyReentrant env fuel ls = some (s2, tr)) :
    tr.count x = 1 := by
  have hc : (ls.map some).count (some x) = 1 := by
    have h1 : (ls.map some).Nodup := hnd.map (fun a b h => Option.some.inj h)
    exact count_one_of_nodup_mem h1 (List.mem_map_of_mem some hx)
  have h := forEachFuel_count_of_safe env x hsafe fuel 0 (ls.map some) s2 tr hrun hc
  rw [List.drop_zero] at h
  rw [h, hc]

/-- C6 witness: the amended theorem applied to a completed concrete cycle —
one registered listener `5` with inert bodies is invoked exactly once. -/
theorem notify_calls_surviving_listener_once_witness :
    ([5] : List Nat).count 5 = 1 :=
  notify_calls_surviving_listener_once (fun _ => []) 3 [5] 5 [some 5] [5]
    (by decide) (by decide) (fun y => List.not_mem_nil _) (by decide)
